import Mathlib

/-!
Verification development for the chrome-claude workflow engine.

The TypeScript source is shallowly embedded: JavaScript runtime values are
modelled by the inductive `Value`, JavaScript numbers (IEEE doubles including
NaN and the infinities) by `JsNum` with finite values carried exactly as
rationals, and host/library builtins (`Number(...)` string parsing,
`String(...)` conversion, `JSON.parse`, Handlebars template rendering) are
modelled from their documented semantics at the fidelity the verified claims
exercise.  Effectful code (`runner.ts`) is embedded as a pure function that
also returns the list of side effects it would perform, in order.
-/

/-- JavaScript numbers: NaN, the two infinities, or a finite value.  Finite
values are carried as exact rationals; no claim below performs float
arithmetic on them, they only flow from `Number(...)` parsing into results. -/
inductive JsNum where
  | nan
  | posInf
  | negInf
  | fin (q : Rat)
deriving Repr, DecidableEq

/-- JS whitespace characters stripped by `Number(string)` and `String.prototype.trim`. -/
def isJsSpace (c : Char) : Bool :=
  c = ' ' || c = '\t' || c = '\n' || c = '\r' || c = '\x0b' || c = '\x0c' ||
  c = ' ' || c = '﻿'

/-- Strip leading and trailing JS whitespace from a character list. -/
def trimJs (cs : List Char) : List Char :=
  ((cs.dropWhile isJsSpace).reverse.dropWhile isJsSpace).reverse

/-- JS `String.prototype.trim` (used by `defineWorkflow` on the task template). -/
def strTrim (s : String) : String :=
  String.mk (trimJs s.data)

def digitVal (c : Char) : Nat := c.toNat - '0'.toNat

def natOfDigits (ds : List Char) : Nat :=
  ds.foldl (fun a c => 10 * a + digitVal c) 0

def isHexDigit (c : Char) : Bool :=
  c.isDigit || ('a' ≤ c && c ≤ 'f') || ('A' ≤ c && c ≤ 'F')

def hexVal (c : Char) : Nat :=
  if c.isDigit then digitVal c
  else if 'a' ≤ c && c ≤ 'f' then c.toNat - 'a'.toNat + 10
  else c.toNat - 'A'.toNat + 10

def natOfHexDigits (ds : List Char) : Nat :=
  ds.foldl (fun a c => 16 * a + hexVal c) 0

def isOctDigit (c : Char) : Bool := '0' ≤ c && c ≤ '7'

def natOfOctDigits (ds : List Char) : Nat :=
  ds.foldl (fun a c => 8 * a + digitVal c) 0

def isBinDigit (c : Char) : Bool := c = '0' || c = '1'

def natOfBinDigits (ds : List Char) : Nat :=
  ds.foldl (fun a c => 2 * a + digitVal c) 0

/-- Apply a decimal exponent part to an already-parsed mantissa. -/
def applyExponent (base : Rat) (pos : Bool) (ds : List Char) : Option Rat :=
  if ds.isEmpty || !ds.all Char.isDigit then none
  else if pos then some (base * (10 : Rat) ^ natOfDigits ds)
  else some (base / (10 : Rat) ^ natOfDigits ds)

/-- Parse the optional exponent suffix of a JS decimal literal. -/
def parseExponentPart (base : Rat) : List Char → Option Rat
  | [] => some base
  | e :: r =>
    if e = 'e' || e = 'E' then
      match r with
      | '+' :: r' => applyExponent base true r'
      | '-' :: r' => applyExponent base false r'
      | r' => applyExponent base true r'
    else none

/-- Parse an unsigned JS decimal literal body: digits, optional fraction,
optional exponent.  Returns `none` when the text is not a decimal literal. -/
def parseDecimalBody (cs : List Char) : Option Rat :=
  let ipart := cs.takeWhile Char.isDigit
  let r1 := cs.dropWhile Char.isDigit
  match r1 with
  | '.' :: r2 =>
    let fpart := r2.takeWhile Char.isDigit
    let r3 := r2.dropWhile Char.isDigit
    if ipart.isEmpty && fpart.isEmpty then none
    else
      parseExponentPart
        (((natOfDigits ipart * 10 ^ fpart.length + natOfDigits fpart : Nat) : Rat)
          / (10 : Rat) ^ fpart.length) r3
  | _ =>
    if ipart.isEmpty then none
    else parseExponentPart ((natOfDigits ipart : Nat) : Rat) r1

/-- Parse a signed JS decimal literal (sign allowed only for decimals). -/
def parseSignedDecimal (cs : List Char) : JsNum :=
  match cs with
  | '+' :: r =>
    match parseDecimalBody r with
    | some q => .fin q
    | none => .nan
  | '-' :: r =>
    match parseDecimalBody r with
    | some q => .fin (-q)
    | none => .nan
  | r =>
    match parseDecimalBody r with
    | some q => .fin q
    | none => .nan

/-- Modelled JS `Number(string)` conversion (ECMAScript StringNumericLiteral):
trim whitespace, empty means 0, the `Infinity` forms, `0x`/`0o`/`0b` radix
literals, otherwise a signed decimal literal; anything else is NaN.  Finite
results are exact rationals (the model does not round to binary64; no claim
below depends on double rounding). -/
def jsStrToNum (s : String) : JsNum :=
  let cs := trimJs s.data
  match cs with
  | [] => .fin 0
  | _ =>
    if cs == "Infinity".data || cs == "+Infinity".data then .posInf
    else if cs == "-Infinity".data then .negInf
    else
      match cs with
      | '0' :: x :: rest =>
        if x = 'x' || x = 'X' then
          if !rest.isEmpty && rest.all isHexDigit then .fin ((natOfHexDigits rest : Nat) : Rat)
          else .nan
        else if x = 'o' || x = 'O' then
          if !rest.isEmpty && rest.all isOctDigit then .fin ((natOfOctDigits rest : Nat) : Rat)
          else .nan
        else if x = 'b' || x = 'B' then
          if !rest.isEmpty && rest.all isBinDigit then .fin ((natOfBinDigits rest : Nat) : Rat)
          else .nan
        else parseSignedDecimal cs
      | _ => parseSignedDecimal cs

/-- JavaScript runtime values, as far as the workflow engine inspects them:
`undefined`, `null`, strings, numbers, booleans, arrays and plain objects
(association lists keyed by property name, insertion-ordered). -/
inductive Value where
  | undef
  | null
  | str (s : String)
  | num (n : JsNum)
  | bool (b : Bool)
  | arr (elems : List Value)
  | obj (fields : List (String × Value))

/-- JS `typeof` as a string, as used in the validator error messages. -/
def typeofStr : Value → String
  | .undef => "undefined"
  | .null => "object"
  | .str _ => "string"
  | .num _ => "number"
  | .bool _ => "boolean"
  | .arr _ => "object"
  | .obj _ => "object"

/-- JS truthiness (`Boolean(value)`). -/
def jsTruthy : Value → Bool
  | .undef => false
  | .null => false
  | .str s => !(s == "")
  | .num n =>
    match n with
    | .nan => false
    | .fin q => !(q == 0)
    | _ => true
  | .bool b => b
  | .arr _ => true
  | .obj _ => true

/-- Modelled JS number-to-string.  Exact for NaN, the infinities and integer
values (the only numbers the verified claims print); non-integral rationals
are printed as `num/den`, a documented deviation from double formatting that
no claim below reaches. -/
def jsNumToString : JsNum → String
  | .nan => "NaN"
  | .posInf => "Infinity"
  | .negInf => "-Infinity"
  | .fin q => if q.den == 1 then toString q.num else toString q.num ++ "/" ++ toString q.den

/-- Modelled JS `String(value)` for non-array values; arrays are handled one
level deep in `jsToString` (JS joins elements with commas).  A nested array
or object element inside an array is approximated; no verified claim
evaluates `String(...)` on those. -/
def jsToStringLeaf : Value → String
  | .undef => "undefined"
  | .null => "null"
  | .str s => s
  | .bool b => cond b ("true") "false"
  | .num n => jsNumToString n
  | .arr _ => ""
  | .obj _ => "[object Object]"

/-- JS `Array.prototype.join` element conversion: null/undefined join as empty. -/
def jsJoinElem : Value → String
  | .undef => ""
  | .null => ""
  | v => jsToStringLeaf v

/-- JS `array.join(sep)` / `strings.join(sep)` (also used for `sections.join`). -/
def jsJoin (sep : String) : List String → String
  | [] => ""
  | [a] => a
  | a :: rest => a ++ sep ++ jsJoin sep rest

/-- Modelled JS `String(value)` conversion. -/
def jsToString : Value → String
  | .arr es => jsJoin (",") (es.map jsJoinElem)
  | v => jsToStringLeaf v

/-- Modelled JS `Number(value)` conversion. -/
def jsToNumber : Value → JsNum
  | .undef => .nan
  | .null => .fin 0
  | .bool b => cond b (.fin 1) (.fin 0)
  | .num n => n
  | .str s => jsStrToNum s
  | .arr es => jsStrToNum (jsToString (.arr es))
  | .obj _ => .nan

/-- JS `isNaN` applied to an already-converted number. -/
def jsIsNaN : JsNum → Bool
  | .nan => true
  | _ => false

/-- JS property read `obj[key]`: `undefined` when the key is absent. -/
def jsGet (fields : List (String × Value)) (key : String) : Value :=
  match fields.find? (fun p => p.1 == key) with
  | some p => p.2
  | none => (.undef)

/-! ## Data model (`types.ts`) -/

/-- Embedding of `ParamType` from `types.ts`. -/
inductive ParamType where
  | string
  | number
  | boolean
  | array
  | object
deriving Repr, DecidableEq

/-- Embedding of `ParamDefinition` from `types.ts`.  `required` absent in JS is falsy, so it
is modelled as a `Bool` defaulting to `false`; a JS `default: undefined` is
indistinguishable from an absent default (`!== undefined`), modelled as
`none`. -/
structure ParamDefinition where
  type : ParamType
  required : Bool := false
  default : Option Value := none
  description : Option String := none

/-- Embedding of `NetworkCaptureConfig` from `types.ts`.  Method and level enums are
carried as their string representations, as they are only joined into text. -/
structure NetworkCaptureConfig where
  patterns : List String
  methods : Option (List String) := none
  statusCodes : Option (List Int) := none
  contentType : Option String := none
  saveDir : String
  extractJson : Option Bool := none
  includeRequestHeaders : Option Bool := none
  includeResponseHeaders : Option Bool := none

/-- Embedding of `ConsoleCaptureConfig` from `types.ts`. -/
structure ConsoleCaptureConfig where
  levels : List String
  pattern : Option String := none
  saveAs : String

/-- Embedding of `ScreenshotConfig` from `types.ts`. -/
structure ScreenshotConfig where
  dir : String
  format : Option String := none
  naming : Option String := none

/-- Embedding of `CaptureConfig` from `types.ts`; `screenshots` is a string or a config. -/
structure CaptureConfig where
  network : Option NetworkCaptureConfig := none
  screenshots : Option (String ⊕ ScreenshotConfig) := none
  console : Option ConsoleCaptureConfig := none
  data : Option String := none

/-- Embedding of `WorkflowDefinition` from `types.ts`.  `params` is the insertion-ordered
property list of the JS params object (`Object.entries` order). -/
structure WorkflowDefinition where
  name : String
  description : Option String := none
  params : List (String × ParamDefinition)
  capture : CaptureConfig
  task : String

/-- Embedding of `ValidationError` from `types.ts`. -/
structure ValidationError where
  param : String
  message : String
deriving Repr, DecidableEq

/-- Embedding of `ValidationResult` from `types.ts`. -/
structure ValidationResult where
  valid : Bool
  errors : List ValidationError
  resolvedParams : List (String × Value)

/-! ## Schema validator / coercer (`validator.ts`)

`JSON.parse` is a host builtin; the definitions below are parameterized by a
function `jp : String → Option Value` standing for it (`none` models a parse
exception).  No verified claim exercises the object-parameter branches, so
every theorem below holds for an arbitrary `jp`. -/

/-- Embedding of `coerceValue` from `validator.ts`: best-effort conversion of a raw value
to the declared parameter type. -/
def coerceValue (jp : String → Option Value) (type : ParamType) (value : Value) : Value :=
  match value with
  | .undef => .undef
  | .null => .null
  | v =>
    match type with
    | .number =>
      match v with
      | .num n => .num n
      | _ => .num (jsToNumber v)
    | .boolean =>
      match v with
      | .bool b => .bool b
      | .str ("true") => .bool true
      | .str ("false") => .bool false
      | _ => .bool (jsTruthy v)
    | .array =>
      match v with
      | .arr es => .arr es
      | .str s => .arr ((s.splitOn (",")).map (fun t => .str (strTrim t)))
      | _ => .arr [v]
    | .object =>
      match v with
      | .obj fs => .obj fs
      | .str s =>
        match jp s with
        | some parsed => parsed
        | none => .str s
      | _ => v
    | _ => .str (jsToString v)

/-- Embedding of `coerceParams` from `validator.ts`: walk the declared schema, substitute
defaults for absent (`undefined`/`null`) raw values, coerce the rest.  Note
that only declared parameter names are ever copied into the result. -/
def coerceParams (jp : String → Option Value) (schema : List (String × ParamDefinition))
    (params : List (String × Value)) : List (String × Value) :=
  match schema with
  | [] => []
  | (name, d) :: rest =>
    match jsGet params name with
    | .undef =>
      match d.default with
      | some dv => (name, dv) :: coerceParams jp rest params
      | none => coerceParams jp rest params
    | .null =>
      match d.default with
      | some dv => (name, dv) :: coerceParams jp rest params
      | none => coerceParams jp rest params
    | v => (name, coerceValue jp d.type v) :: coerceParams jp rest params

/-- Embedding of `validateType` from `validator.ts`. -/
def validateType (jp : String → Option Value) (name : String) (expectedType : ParamType)
    (value : Value) : Option ValidationError :=
  match expectedType with
  | .string =>
    match value with
    | .str _ => none
    | v => some ⟨name, "Expected string, got " ++ typeofStr v⟩
  | .number =>
    match value with
    | .num _ => none
    | v =>
      if jsIsNaN (jsToNumber v) then some ⟨name, "Expected number, got " ++ typeofStr v⟩
      else none
  | .boolean =>
    match value with
    | .bool _ => none
    | .str ("true") => none
    | .str ("false") => none
    | v => some ⟨name, "Expected boolean, got " ++ typeofStr v⟩
  | .array =>
    match value with
    | .arr _ => none
    | .str _ => none
    | v => some ⟨name, "Expected array, got " ++ typeofStr v⟩
  | .object =>
    match value with
    | .obj _ => none
    | .null => none
    | .str s =>
      match jp s with
      | some _ => none
      | none => some ⟨name, "Expected object, got invalid JSON"⟩
    | .arr _ => some ⟨name, "Expected object, got object"⟩
    | v => some ⟨name, "Expected object, got " ++ typeofStr v⟩

/-- The JS test `value === undefined || value === null || value === ''`. -/
def isAbsentish : Value → Bool
  | .undef => true
  | .null => true
  | .str s => s == ""
  | _ => false

/-- Result shape of `validateParam` (`{ value, error? }`). -/
structure ParamCheck where
  value : Value
  error : Option ValidationError := none

/-- Embedding of `validateParam` from `validator.ts`. -/
def validateParam (jp : String → Option Value) (name : String) (d : ParamDefinition)
    (value : Value) : ParamCheck :=
  if isAbsentish value then
    if d.required then ⟨.undef, some ⟨name, "Required parameter missing: " ++ name⟩⟩
    else
      match d.default with
      | some dv => ⟨dv, none⟩
      | none => ⟨.undef, none⟩
  else
    match validateType jp name d.type value with
    | some e => ⟨value, some e⟩
    | none => ⟨value, none⟩

/-- The per-declared-parameter loop of `validateParams`: accumulate errors and
resolved values in schema order. -/
def validateEach (jp : String → Option Value) (schema : List (String × ParamDefinition))
    (params : List (String × Value)) : List ValidationError × List (String × Value) :=
  match schema with
  | [] => ([], [])
  | (name, d) :: rest =>
    let pv := validateParam jp name d (jsGet params name)
    let acc := validateEach jp rest params
    match pv.error with
    | some e => (e :: acc.1, acc.2)
    | none => (acc.1, (name, pv.value) :: acc.2)

/-- The unknown-parameter loop of `validateParams`: every input key not
declared in the schema yields an `Unknown parameter` error. -/
def unknownParamErrors (schema : List (String × ParamDefinition)) :
    List (String × Value) → List ValidationError
  | [] => []
  | (n, _) :: rest =>
    if schema.any (fun p => p.1 == n) then unknownParamErrors schema rest
    else ⟨n, "Unknown parameter: " ++ n⟩ :: unknownParamErrors schema rest

/-- Embedding of `validateParams` from `validator.ts`. -/
def validateParams (jp : String → Option Value) (workflow : WorkflowDefinition)
    (params : List (String × Value)) : ValidationResult :=
  let walked := validateEach jp workflow.params params
  let errors := walked.1 ++ unknownParamErrors workflow.params params
  { valid := errors.isEmpty, errors := errors, resolvedParams := walked.2 }

/-- Embedding of `formatErrors` from `validator.ts`. -/
def formatErrors (errors : List ValidationError) : String :=
  jsJoin ("\n") (errors.map (fun e => "  - " ++ e.param ++ ": " ++ e.message))

/-! ## Template rendering (`prompt-builder.ts` / Handlebars)

The source renders templates with the Handlebars library
(`Handlebars.compile(template)(context)`), which is not part of this
repository.  The model below implements Handlebars' documented behaviour for
the mustache placeholders the workflow engine relies on: a `\x7b\x7bname\x7d\x7d`
placeholder is replaced by the context value converted to a string and
HTML-escaped with Handlebars' `escapeExpression` table
(`& < > " ' = `​ and backtick), and a name that is absent from the context
(JS `undefined`) renders as the empty string.  A malformed template (an
unclosed placeholder, which Handlebars rejects with a parse error) is
modelled as literal output; no verified claim uses one. -/

/-- One character of Handlebars' `escapeExpression`. -/
def escapeCharL (c : Char) : List Char :=
  if c = '&' then ("&amp;").data
  else if c = '<' then ("&lt;").data
  else if c = '>' then ("&gt;").data
  else if c = '"' then ("&quot;").data
  else if c = Char.ofNat 39 then ("&#x27;").data
  else if c = Char.ofNat 96 then ("&#x60;").data
  else if c = '=' then ("&#x3D;").data
  else [c]

/-- Handlebars' `escapeExpression` over a character list. -/
def escapeHtmlL (cs : List Char) : List Char :=
  cs.flatMap escapeCharL

/-- Handlebars' `escapeExpression`. -/
def escapeHtml (s : String) : String :=
  String.mk (escapeHtmlL s.data)

/-- The HTML-special characters that `escapeExpression` rewrites. -/
def isHtmlSpecial (c : Char) : Bool :=
  c = '&' || c = '<' || c = '>' || c = '"' || c = Char.ofNat 39 ||
  c = Char.ofNat 96 || c = '='

/-- Handlebars' conversion of a looked-up value to text: `undefined` and
`null` render as empty, everything else through string conversion. -/
def hbStringify : Value → String
  | .undef => ""
  | .null => ""
  | v => jsToString v

/-- Split a placeholder body from the text following its closing braces:
`hbSplitBody cs = some (body, rest)` when `cs = body ++ '\x7d' :: '\x7d' :: rest`
with the first closing pair taken. -/
def hbSplitBody : List Char → Option (List Char × List Char)
  | [] => none
  | '}' :: '}' :: rest => some ([], rest)
  | c :: rest =>
    match hbSplitBody rest with
    | some (body, r) => some (c :: body, r)
    | none => none

/-- Resolve one placeholder body against the rendering context: trim the
identifier, look it up, stringify and escape. -/
def hbLookup (ctx : List (String × Value)) (body : List Char) : List Char :=
  escapeHtmlL (hbStringify (jsGet ctx (String.mk (trimJs body)))).data

/-- One rendering step: emit the next output chunk and the remaining input. -/
def hbStep (ctx : List (String × Value)) : List Char → List Char × List Char
  | [] => ([], [])
  | '{' :: '{' :: rest =>
    match hbSplitBody rest with
    | some (body, r) => (hbLookup ctx body, r)
    | none => ('{' :: '{' :: rest, [])
  | c :: rest => ([c], rest)

/-- Fuel-indexed rendering loop; each step consumes at least one input
character, so fuel equal to the input length suffices. -/
def hbRun (ctx : List (String × Value)) : Nat → List Char → List Char
  | 0, cs => cs
  | fuel + 1, cs =>
    match cs with
    | [] => []
    | cs =>
      let st := hbStep ctx cs
      st.1 ++ hbRun ctx fuel st.2

/-- Render a character list against a context. -/
def hbRenderL (ctx : List (String × Value)) (cs : List Char) : List Char :=
  hbRun ctx cs.length cs

/-- Embedding of `renderTemplate` from `prompt-builder.ts` (there
`Handlebars.compile(template)(context)`). -/
def renderTemplate (template : String) (ctx : List (String × Value)) : String :=
  String.mk (hbRenderL ctx template.data)

/-! ## Prompt composition (`prompt-builder.ts`) -/

/-- Embedding of `buildNetworkInstructions` from `prompt-builder.ts`. -/
def buildNetworkInstructions (config : NetworkCaptureConfig)
    (ctx : List (String × Value)) : String :=
  let saveDir := renderTemplate config.saveDir ctx
  let lines := ["\nNETWORK CAPTURE:"]
  let lines := lines ++ ["- Monitor network requests matching: " ++ jsJoin (", ") config.patterns]
  let lines := lines ++
    (match config.methods with
     | some ms => if ms.isEmpty then [] else ["- Only capture methods: " ++ jsJoin (", ") ms]
     | none => [])
  let lines := lines ++
    (match config.statusCodes with
     | some cs =>
       if cs.isEmpty then []
       else ["- Only capture status codes: " ++ jsJoin (", ") (cs.map toString)]
     | none => [])
  let lines := lines ++
    (match config.contentType with
     | some ct => if ct == "" then [] else ["- Only capture content type: " ++ ct]
     | none => [])
  let lines := lines ++ ["- Save responses to: " ++ saveDir]
  let lines := lines ++
    (if config.extractJson == some false then [] else ["- Extract and format JSON responses"])
  let lines := lines ++
    (if config.includeRequestHeaders == some true then ["- Include request headers"] else [])
  let lines := lines ++
    (if config.includeResponseHeaders == some true then ["- Include response headers"] else [])
  jsJoin ("\n") lines

/-- Embedding of `buildScreenshotInstructions` from `prompt-builder.ts`. -/
def buildScreenshotInstructions (config : String ⊕ ScreenshotConfig)
    (ctx : List (String × Value)) : String :=
  match config with
  | .inl dir =>
    jsJoin ("\n")
      ["\nSCREENSHOTS:",
       "- Take screenshots at key steps",
       "- Save to: " ++ renderTemplate dir ctx,
       "- Name files descriptively (e.g., 01-login-page.png, 02-dashboard.png)"]
  | .inr cfg =>
    jsJoin ("\n")
      (["\nSCREENSHOTS:",
        "- Take screenshots at key steps",
        "- Save to: " ++ renderTemplate cfg.dir ctx,
        "- Format: " ++ (match cfg.format with | some f => if f == "" then ("png") else f | none => "png")] ++
       (if cfg.naming == some ("timestamp") then ["- Name files with timestamps"]
        else ["- Name files with step numbers and descriptions"]))

/-- Embedding of `buildConsoleInstructions` from `prompt-builder.ts`. -/
def buildConsoleInstructions (config : ConsoleCaptureConfig)
    (ctx : List (String × Value)) : String :=
  jsJoin ("\n")
    (["\nCONSOLE CAPTURE:",
      "- Capture console output: " ++ jsJoin (", ") config.levels] ++
     (match config.pattern with
      | some p => if p == "" then [] else ["- Filter messages matching: " ++ p]
      | none => []) ++
     ["- Save to: " ++ renderTemplate config.saveAs ctx])

/-- Embedding of `buildCaptureInstructions` from `prompt-builder.ts`; absent (or falsy)
capture sub-specs produce no block. -/
def buildCaptureInstructions (capture : CaptureConfig)
    (ctx : List (String × Value)) : String :=
  let blocks : List String :=
    (match capture.network with
     | some cfg => [buildNetworkInstructions cfg ctx]
     | none => []) ++
    (match capture.screenshots with
     | some (.inl dir) => if dir == "" then [] else [buildScreenshotInstructions (.inl dir) ctx]
     | some (.inr cfg) => [buildScreenshotInstructions (.inr cfg) ctx]
     | none => []) ++
    (match capture.console with
     | some cfg => [buildConsoleInstructions cfg ctx]
     | none => []) ++
    (match capture.data with
     | some d =>
       if d == "" then []
       else ["\nDATA EXTRACTION:\n- Save extracted data as JSON to: " ++ renderTemplate d ctx]
     | none => [])
  jsJoin ("\n") blocks

/-- Options argument of `buildPrompt`. -/
structure BuildOptions where
  outputDir : Option String := none

/-- Embedding of `buildPrompt` from `prompt-builder.ts`.  The rendering context is the JS
object `\x7b...params, name, outputDir\x7d`; the injected `name`/`outputDir`
entries override params of the same name, which the association-list model
realizes by putting them in front of the lookup order (the context is only
ever read through key lookup). -/
def buildPrompt (workflow : WorkflowDefinition) (params : List (String × Value))
    (options : BuildOptions) : String :=
  let outputDir :=
    match options.outputDir with
    | some s => if s == "" then ("./output/") ++ workflow.name else s
    | none => "./output/" ++ workflow.name
  let context : List (String × Value) :=
    ("name", .str workflow.name) :: ("outputDir", .str outputDir) :: params
  let task := renderTemplate workflow.task context
  let captureInstructions := buildCaptureInstructions workflow.capture context
  let sections : List String :=
    [task] ++
    (if captureInstructions == "" then []
     else ["", "---", "CAPTURE INSTRUCTIONS:", captureInstructions]) ++
    ["", "---", "OUTPUT FORMAT:", "When complete, summarize:", "- What was done",
     "- Files saved (with paths)", "- Any errors or issues encountered"]
  jsJoin ("\n") sections

/-! ## Execution manager (`runner.ts`)

The runner's side effects (directory creation, process spawning, console
logging) are embedded as an explicit, ordered trace of `Effect`s returned
alongside the `RunResult`.  The ambient world is an `ExecEnv`: the working
directory (`process.cwd()`), whether the output directory already exists
(`existsSync`), the spawned child's pid, the wall-clock duration observed at
completion, and the foreground subprocess outcome.  `runWorkflow` in the
source first loads the definition via `getWorkflow`; loading is a read-only
resolution step, and the embedding (like the source's own `executeWorkflow`)
starts from the loaded definition. -/

/-- Embedding of `RunOptions` from `types.ts`. -/
structure RunOptions where
  params : List (String × Value)
  background : Option Bool := none
  workDir : Option String := none
  dryRun : Option Bool := none

/-- The `files` field of `RunResult`. -/
structure CapturedFiles where
  network : Option (List String) := none
  screenshots : Option (List String) := none
  console : Option String := none
  data : Option String := none
deriving Repr, DecidableEq

/-- Embedding of `RunResult` from `types.ts`. -/
structure RunResult where
  success : Bool
  outputDir : String
  files : CapturedFiles := {}
  error : Option String := none
  duration : Option Nat := none
deriving Repr, DecidableEq

/-- Observable side effects of a run, in program order.  Foreground streaming
of the child's stdout/stderr onto the parent's streams is not itself recorded
as an effect; the buffered text is reflected in the returned error. -/
inductive Effect where
  | log (msg : String)
  | mkdirRecursive (dir : String)
  | spawnProc (detached : Bool) (prompt : String)
deriving Repr, DecidableEq

/-- Filesystem-write effects (`mkdir`). -/
def Effect.isFsWrite : Effect → Bool
  | .mkdirRecursive _ => true
  | _ => false

/-- Process-spawn effects. -/
def Effect.isSpawnEffect : Effect → Bool
  | .spawnProc _ _ => true
  | _ => false

/-- Outcome of the foreground subprocess: a close event with an exit code and
the buffered stderr text, or a spawn-level error event. -/
inductive ProcOutcome where
  | exited (code : Int) (stderrBuf : String)
  | spawnFailed (msg : String)

/-- The ambient world of one run. -/
structure ExecEnv where
  cwd : String
  dirExists : String → Bool
  pid : Nat
  elapsed : Nat
  proc : ProcOutcome

/-- Embedding of `resolve(base, seg, seg')` from `node:path`, modelled as plain joining
with `/` (the verified claims use relative segment names only, where Node's
`resolve` reduces to joining). -/
def pathResolve3 (base seg seg' : String) : String :=
  base ++ "/" ++ seg ++ "/" ++ seg'

/-- Embedding of `ensureDir` from `runner.ts`: create the directory recursively only when
it does not already exist. -/
def ensureDirFx (env : ExecEnv) (dir : String) : List Effect :=
  if env.dirExists dir then [] else [.mkdirRecursive dir]

/-- Embedding of `runInBackground` from `runner.ts`: spawn detached, unref, report success. -/
def runInBackground (prompt outputDir : String) (env : ExecEnv) : RunResult × List Effect :=
  ({ success := true, outputDir := outputDir, files := {}, duration := some env.elapsed },
   [.spawnProc true prompt,
    .log ("Workflow running in background (PID: " ++ toString env.pid ++ ")"),
    .log ("Output will be saved to: " ++ outputDir)])

/-- Embedding of `runForeground` from `runner.ts`: spawn attached and resolve on the close
or error event. -/
def runForeground (prompt outputDir : String) (env : ExecEnv) : RunResult × List Effect :=
  let result : RunResult :=
    match env.proc with
    | .exited code stderrBuf =>
      if code = 0 then
        { success := true, outputDir := outputDir, files := {}, duration := some env.elapsed }
      else
        { success := false, outputDir := outputDir, files := {},
          error := some (if stderrBuf == "" then ("Process exited with code ") ++ toString code
                         else stderrBuf),
          duration := some env.elapsed }
    | .spawnFailed msg =>
      { success := false, outputDir := outputDir, files := {}, error := some msg,
        duration := some env.elapsed }
  (result, [.spawnProc false prompt])

/-- Embedding of `runWorkflow` from `runner.ts` (after `getWorkflow` resolution; the body
is shared verbatim with `executeWorkflow`): coerce and validate, fail fast on
invalid params, otherwise compose the prompt, short-circuit on dry run, else
ensure the output directory and spawn in background or foreground mode. -/
def runWorkflow (jp : String → Option Value) (definition : WorkflowDefinition)
    (options : RunOptions) (env : ExecEnv) : RunResult × List Effect :=
  let coercedParams := coerceParams jp definition.params options.params
  let validation := validateParams jp definition coercedParams
  if validation.valid then
    let workDir :=
      match options.workDir with
      | some d => if d == "" then env.cwd else d
      | none => env.cwd
    let outputDir := pathResolve3 workDir ("output") definition.name
    let prompt := buildPrompt definition validation.resolvedParams { outputDir := some outputDir }
    if options.dryRun = some true then
      ({ success := true, outputDir := outputDir, files := {}, duration := some env.elapsed },
       [.log ("=== DRY RUN ==="), .log ("Prompt that would be sent to Claude:\n"),
        .log prompt, .log ("\n=== END DRY RUN ===")])
    else
      let dirFx := ensureDirFx env outputDir
      if options.background = some false then
        let fg := runForeground prompt outputDir env
        (fg.1, dirFx ++ fg.2)
      else
        let bg := runInBackground prompt outputDir env
        (bg.1, dirFx ++ bg.2)
  else
    ({ success := false, outputDir := "", files := {},
       error := some ("Parameter validation failed:\n" ++ formatErrors validation.errors) },
     [])

/-! ## Discovery / loader (`loader.ts`)

`listWorkflows` concatenates the recursive scan of each search root in
priority order and then deduplicates by declared workflow name, first found
wins.  The filesystem scan itself is IO; the embedding takes the per-root
scan results (each an ordered list of successfully loaded workflows) as
input and keeps the source's deduplication exactly. -/

/-- Embedding of `LoadedWorkflow` from `types.ts`. -/
structure LoadedWorkflow where
  definition : WorkflowDefinition
  filePath : String
  directory : String

/-- The `seen`-set filter of `listWorkflows`: keep a workflow only if its
declared name has not been seen before. -/
def dedupeByNameGo (seen : List String) : List LoadedWorkflow → List LoadedWorkflow
  | [] => []
  | w :: rest =>
    if seen.contains w.definition.name then dedupeByNameGo seen rest
    else w :: dedupeByNameGo (w.definition.name :: seen) rest

/-- Embedding of `listWorkflows` from `loader.ts`, over the per-root scan results in
root-priority order. -/
def listWorkflows (scans : List (List LoadedWorkflow)) : List LoadedWorkflow :=
  dedupeByNameGo [] scans.flatten

/-! ## Definition normalizer (`workflow.ts` / `defineWorkflow`) -/

/-- A raw definition value as a JS caller may pass it: every field possibly
absent (`undefined`). -/
structure RawWorkflowInput where
  name : Option String := none
  description : Option String := none
  params : Option (List (String × ParamDefinition)) := none
  capture : Option CaptureConfig := none
  task : Option String := none

/-- JS falsy test for an optional string field (absent or empty). -/
def strFalsy : Option String → Bool
  | none => true
  | some s => s == ""

/-- Embedding of `defineWorkflow` from `workflow.ts`: reject a missing/empty `name` or
`task` and absent `params`/`capture` (a thrown `Error` is modelled as
`Except.error` with the thrown message); on success return the definition
with the task template trimmed and every other field unchanged.  The `getD`
fallbacks are unreachable: the guards above them ensure each field is
present. -/
def defineWorkflow (d : RawWorkflowInput) : Except String WorkflowDefinition :=
  if strFalsy d.name then .error ("Workflow must have a name")
  else if strFalsy d.task then .error ("Workflow must have a task")
  else if d.params.isNone then
    .error ("Workflow must have params (use empty object \x7b\x7d if none)")
  else if d.capture.isNone then
    .error ("Workflow must have capture config (use empty object \x7b\x7d if none)")
  else
    .ok { name := d.name.getD (""), description := d.description,
          params := d.params.getD [], capture := d.capture.getD {},
          task := strTrim (d.task.getD ("")) }

/-! ## Text predicates and claim fixtures -/

def braceFree (s : String) : Bool :=
  s.data.all (fun c => !(c = '{' : Bool) && !(c = '}' : Bool))

def htmlSafe (s : String) : Bool :=
  s.data.all (fun c => !isHtmlSpecial c)

def containsHtmlSpecial (s : String) : Bool :=
  s.data.any isHtmlSpecial

/-! ## Claim-specific fixtures -/

def jpNone : String → Option Value := fun _ => none

def promptFooter : String :=
  "\n---\nOUTPUT FORMAT:\nWhen complete, summarize:\n- What was done\n- Files saved (with paths)\n- Any errors or issues encountered"

def wfPlaceholder (wn pre suf : String) : WorkflowDefinition :=
  { name := wn, params := [], capture := {}, task := pre ++ "\x7b\x7bx\x7d\x7d" ++ suf }

def wfUrlRequired : WorkflowDefinition :=
  { name := "scrape", params := [("url", { type := ParamType.string, required := true })],
    capture := {}, task := "t" }

def wfCountNumber : WorkflowDefinition :=
  { name := "wf", params := [("count", { type := ParamType.number, required := true })],
    capture := {}, task := "t" }

def wfFlagBoolean : WorkflowDefinition :=
  { name := "wf", params := [("flag", { type := ParamType.boolean, required := true })],
    capture := {}, task := "t" }

def singleParamWorkflow (wn tk : String) (cap : CaptureConfig) (n : String)
    (d : ParamDefinition) : WorkflowDefinition :=
  { name := wn, params := [(n, d)], capture := cap, task := tk }

def envBase : ExecEnv :=
  { cwd := "/w", dirExists := fun _ => false, pid := 1, elapsed := 5,
    proc := .exited 0 ("") }

def lwA : LoadedWorkflow :=
  { definition := wfUrlRequired, filePath := "/proj/workflows/scrape.ts",
    directory := "/proj/workflows" }

def lwB : LoadedWorkflow :=
  { definition := wfUrlRequired, filePath := "/home/u/.chrome-claude/workflows/scrape.ts",
    directory := "/home/u/.chrome-claude/workflows" }

/-! ## Rendering, escaping and dedup lemmas, and the claims -/

theorem hbSplitBody_lt :
    ∀ cs body r, hbSplitBody cs = some (body, r) → r.length < cs.length := by
  intro cs
  induction cs with
  | nil => simp [hbSplitBody]
  | cons c rest ih =>
    intro body r h
    rw [hbSplitBody.eq_def] at h
    split at h
    · exact absurd h (by simp)
    · rename_i rest' heq
      simp only [Option.some.injEq, Prod.mk.injEq] at h
      obtain ⟨hb, hr⟩ := h
      have h2 : (c :: rest).length = rest'.length + 2 := by rw [heq]; simp
      have h3 : r.length = rest'.length := by rw [← hr]
      omega
    · rename_i c' rest' heq
      injection heq with h1 h2
      subst h2
      split at h
      · rename_i body' r' hsplit
        simp only [Option.some.injEq, Prod.mk.injEq] at h
        obtain ⟨hb, hr⟩ := h
        have := ih body' r' hsplit
        have h3 : r.length = r'.length := by rw [← hr]
        simp only [List.length_cons]
        omega
      · exact absurd h (by simp)

theorem hbStep_snd_lt (ctx : List (String × Value)) :
    ∀ cs, cs ≠ [] → (hbStep ctx cs).2.length < cs.length := by
  intro cs hne
  rw [hbStep.eq_def]
  split
  · simp at hne
  · rename_i x rest
    split
    · rename_i body r hsplit
      have := hbSplitBody_lt rest body r hsplit
      simp only [List.length_cons]
      omega
    · simp
  · simp

theorem hbStep_cons_plain (ctx : List (String × Value)) (c : Char) (cs : List Char)
    (hc : c ≠ '{') : hbStep ctx (c :: cs) = ([c], cs) := by
  rw [hbStep.eq_def]
  split
  · rename_i heq; exact absurd heq (by simp)
  · rename_i x rest heq
    injection heq with h1 h2
    exact absurd h1 hc
  · rename_i x c' rest hno heq
    injection heq with h1 h2
    subst h1; subst h2; rfl

theorem hbSplitBody_closed :
    ∀ (body rest : List Char), (∀ c ∈ body, c ≠ '}') →
      hbSplitBody (body ++ '}' :: '}' :: rest) = some (body, rest) := by
  intro body
  induction body with
  | nil => intro rest h; rfl
  | cons c bs ih =>
    intro rest h
    have hc : c ≠ '}' := h c (by simp)
    rw [List.cons_append, hbSplitBody.eq_def]
    split
    · rename_i heq; exact absurd heq (by simp)
    · rename_i rest' heq
      injection heq with h1 h2
      exact absurd h1 hc
    · rename_i c' rest' hno heq
      injection heq with h1 h2
      subst h1; subst h2
      rw [ih rest (fun x hx => h x (by simp [hx]))]

theorem hbStep_placeholder (ctx : List (String × Value)) (body rest : List Char)
    (h : ∀ c ∈ body, c ≠ '}') :
    hbStep ctx ('{' :: '{' :: (body ++ '}' :: '}' :: rest)) = (hbLookup ctx body, rest) := by
  rw [hbStep.eq_def]
  split
  · rename_i heq; exact absurd heq (by simp)
  · rename_i x rest' heq
    injection heq with h1 h2
    injection h2 with h3 h4
    subst h4
    rw [hbSplitBody_closed body rest h]
  · rename_i x c' rest' hno heq
    injection heq with h1 h2
    exact (hno (body ++ '}' :: '}' :: rest) h1.symm h2.symm).elim

theorem hbRun_congr (ctx : List (String × Value)) :
    ∀ f1 f2 cs, cs.length ≤ f1 → cs.length ≤ f2 → hbRun ctx f1 cs = hbRun ctx f2 cs := by
  intro f1
  induction f1 with
  | zero =>
    intro f2 cs h1 h2
    have hcs : cs = [] := List.eq_nil_of_length_eq_zero (Nat.le_zero.mp h1)
    subst hcs
    cases f2 <;> simp [hbRun]
  | succ f ih =>
    intro f2 cs h1 h2
    match cs, h1, h2 with
    | [], h1, h2 => cases f2 <;> simp [hbRun]
    | c :: cs', h1, h2 =>
      match f2, h2 with
      | f2' + 1, h2 =>
        show (hbStep ctx (c :: cs')).1 ++ hbRun ctx f (hbStep ctx (c :: cs')).2
            = (hbStep ctx (c :: cs')).1 ++ hbRun ctx f2' (hbStep ctx (c :: cs')).2
        have hlt := hbStep_snd_lt ctx (c :: cs') (by simp)
        have hle1 : (hbStep ctx (c :: cs')).2.length ≤ f := by
          simp only [List.length_cons] at hlt h1; omega
        have hle2 : (hbStep ctx (c :: cs')).2.length ≤ f2' := by
          simp only [List.length_cons] at hlt h2; omega
        rw [ih f2' _ hle1 hle2]

theorem hbRenderL_cons_plain (ctx : List (String × Value)) (c : Char) (cs : List Char)
    (hc : c ≠ '{') : hbRenderL ctx (c :: cs) = c :: hbRenderL ctx cs := by
  show hbRun ctx (cs.length + 1) (c :: cs) = c :: hbRun ctx cs.length cs
  show (hbStep ctx (c :: cs)).1 ++ hbRun ctx cs.length (hbStep ctx (c :: cs)).2
      = c :: hbRun ctx cs.length cs
  rw [hbStep_cons_plain ctx c cs hc]
  rfl

theorem hbRenderL_placeholder (ctx : List (String × Value)) (body rest : List Char)
    (h : ∀ c ∈ body, c ≠ '}') :
    hbRenderL ctx ('{' :: '{' :: (body ++ '}' :: '}' :: rest))
      = hbLookup ctx body ++ hbRenderL ctx rest := by
  have hlen : ('{' :: '{' :: (body ++ '}' :: '}' :: rest)).length
      = (body.length + rest.length + 3) + 1 := by simp; omega
  show hbRun ctx ('{' :: '{' :: (body ++ '}' :: '}' :: rest)).length
      ('{' :: '{' :: (body ++ '}' :: '}' :: rest)) = _
  rw [hlen]
  show (hbStep ctx ('{' :: '{' :: (body ++ '}' :: '}' :: rest))).1
      ++ hbRun ctx (body.length + rest.length + 3)
        (hbStep ctx ('{' :: '{' :: (body ++ '}' :: '}' :: rest))).2 = _
  rw [hbStep_placeholder ctx body rest h]
  show hbLookup ctx body ++ hbRun ctx (body.length + rest.length + 3) rest = _
  rw [hbRun_congr ctx (body.length + rest.length + 3) rest.length rest (by omega) (by omega)]
  rfl

theorem hbRenderL_append_plain (ctx : List (String × Value)) :
    ∀ (xs ys : List Char), (∀ c ∈ xs, c ≠ '{') →
      hbRenderL ctx (xs ++ ys) = xs ++ hbRenderL ctx ys := by
  intro xs
  induction xs with
  | nil => intro ys h; rfl
  | cons c xs' ih =>
    intro ys h
    rw [List.cons_append, hbRenderL_cons_plain ctx c (xs' ++ ys) (h c (by simp)),
      ih ys (fun x hx => h x (by simp [hx])), List.cons_append]

theorem hbRenderL_plain (ctx : List (String × Value)) (xs : List Char)
    (h : ∀ c ∈ xs, c ≠ '{') : hbRenderL ctx xs = xs := by
  have h2 := hbRenderL_append_plain ctx xs [] h
  have h0 : hbRenderL ctx [] = [] := rfl
  rw [h0] at h2
  simpa using h2

theorem braceFree_no_open {s : String} (h : braceFree s = true) :
    ∀ c ∈ s.data, c ≠ '{' := by
  intro c hc
  simp only [braceFree, List.all_eq_true] at h
  have h2 := h c hc
  simp only [Bool.and_eq_true, Bool.not_eq_true', decide_eq_false_iff_not] at h2
  exact h2.1

theorem braceFree_no_close {s : String} (h : braceFree s = true) :
    ∀ c ∈ s.data, c ≠ '}' := by
  intro c hc
  simp only [braceFree, List.all_eq_true] at h
  have h2 := h c hc
  simp only [Bool.and_eq_true, Bool.not_eq_true', decide_eq_false_iff_not] at h2
  exact h2.2

theorem escapeCharL_of_safe {c : Char} (h : isHtmlSpecial c = false) :
    escapeCharL c = [c] := by
  simp only [isHtmlSpecial, Bool.or_eq_false_iff, decide_eq_false_iff_not] at h
  obtain ⟨⟨⟨⟨⟨⟨h1, h2⟩, h3⟩, h4⟩, h5⟩, h6⟩, h7⟩ := h
  simp [escapeCharL, h1, h2, h3, h4, h5, h6, h7]

theorem escapeHtmlL_of_safe :
    ∀ (cs : List Char), (∀ c ∈ cs, isHtmlSpecial c = false) → escapeHtmlL cs = cs := by
  intro cs
  induction cs with
  | nil => intro _; rfl
  | cons c rest ih =>
    intro h
    show escapeCharL c ++ escapeHtmlL rest = c :: rest
    rw [escapeCharL_of_safe (h c (by simp)), ih (fun x hx => h x (by simp [hx]))]
    rfl

theorem escapeCharL_length_pos (c : Char) : 1 ≤ (escapeCharL c).length := by
  unfold escapeCharL
  split_ifs <;> simp

theorem escapeCharL_length_of_special {c : Char} (h : isHtmlSpecial c = true) :
    2 ≤ (escapeCharL c).length := by
  simp only [isHtmlSpecial, Bool.or_eq_true, decide_eq_true_eq] at h
  unfold escapeCharL
  rcases h with ((((((h | h) | h) | h) | h) | h) | h) <;> subst h <;> simp

theorem escapeHtmlL_length_le :
    ∀ (cs : List Char), cs.length ≤ (escapeHtmlL cs).length := by
  intro cs
  induction cs with
  | nil => simp [escapeHtmlL]
  | cons c rest ih =>
    show (c :: rest).length ≤ (escapeCharL c ++ escapeHtmlL rest).length
    have := escapeCharL_length_pos c
    simp only [List.length_cons, List.length_append]
    omega

theorem escapeHtmlL_length_lt :
    ∀ (cs : List Char) (c : Char), c ∈ cs → isHtmlSpecial c = true →
      cs.length < (escapeHtmlL cs).length := by
  intro cs
  induction cs with
  | nil => intro c hc; simp at hc
  | cons a rest ih =>
    intro c hc hs
    show (a :: rest).length < (escapeCharL a ++ escapeHtmlL rest).length
    rcases List.mem_cons.mp hc with h | h
    · subst h
      have h2 := escapeCharL_length_of_special hs
      have h3 := escapeHtmlL_length_le rest
      simp only [List.length_cons, List.length_append]
      omega
    · have h2 := ih c h hs
      have h3 := escapeCharL_length_pos a
      simp only [List.length_cons, List.length_append]
      omega

theorem escapeHtml_ne_of_special {s : String} (h : containsHtmlSpecial s = true) :
    escapeHtml s ≠ s := by
  simp only [containsHtmlSpecial, List.any_eq_true] at h
  obtain ⟨c, hc, hs⟩ := h
  intro he
  have : (escapeHtmlL s.data).length = s.data.length := by
    have := congrArg (fun t => t.data.length) he
    simpa [escapeHtml] using this
  have := escapeHtmlL_length_lt s.data c hc hs
  omega

theorem escapeHtml_of_safe {s : String} (h : htmlSafe s = true) : escapeHtml s = s := by
  simp only [htmlSafe, List.all_eq_true, Bool.not_eq_true'] at h
  show String.mk (escapeHtmlL s.data) = s
  rw [escapeHtmlL_of_safe s.data h]

theorem renderTemplate_split (pre nm suf : String) (ctx : List (String × Value))
    (hpre : ∀ c ∈ pre.data, c ≠ '{') (hnm : ∀ c ∈ nm.data, c ≠ '}') :
    renderTemplate (pre ++ "\x7b\x7b" ++ nm ++ "\x7d\x7d" ++ suf) ctx
      = pre ++ String.mk (hbLookup ctx nm.data) ++ renderTemplate suf ctx := by
  have hdata : (pre ++ "\x7b\x7b" ++ nm ++ "\x7d\x7d" ++ suf).data
      = pre.data ++ ('{' :: '{' :: (nm.data ++ '}' :: '}' :: suf.data)) := by
    simp [String.data_append]
  show String.mk (hbRenderL ctx (pre ++ "\x7b\x7b" ++ nm ++ "\x7d\x7d" ++ suf).data) = _
  rw [hdata, hbRenderL_append_plain ctx pre.data _ hpre,
    hbRenderL_placeholder ctx nm.data suf.data hnm]
  exact congrArg String.mk (List.append_assoc pre.data _ _).symm

/-- Claim C1 evaluation: with schema `\x7burl: string, required\x7d` and raw input
containing the undeclared key `extra`, the composed pipeline (`coerceParams`
then `validateParams`, as in `runWorkflow`) drops `extra` silently: the
coerced map contains only `url`, validation reports `valid` with no errors,
and `extra` appears in neither `errors` nor `resolvedParams`.  The unknown-key
check does fire when `validateParams` sees the raw input directly, showing the
check exists but is unreachable through the pipeline. -/
theorem claimC1_pipeline_drops_unknown_key :
    coerceParams jpNone wfUrlRequired.params
        [("url", Value.str ("https://a")), ("extra", Value.str ("x"))]
      = [("url", Value.str ("https://a"))]
    ∧ validateParams jpNone wfUrlRequired
        (coerceParams jpNone wfUrlRequired.params
          [("url", Value.str ("https://a")), ("extra", Value.str ("x"))])
      = { valid := true, errors := [],
          resolvedParams := [("url", Value.str ("https://a"))] }
    ∧ (validateParams jpNone wfUrlRequired
        [("url", Value.str ("https://a")), ("extra", Value.str ("x"))]).errors
      = [⟨"extra", "Unknown parameter: extra"⟩] :=
  ⟨rfl, rfl, rfl⟩

/-- Claim C2 evaluation: for a Number-typed parameter, the raw string `"abc"`
does not parse to a finite number, yet the pipeline accepts it: coercion turns
it into NaN (a JS `number`), after which validation's `typeof` test passes and
NaN lands in `resolvedParams`.  `validateType` alone would have rejected the
raw string, showing the intended check is dead on the pipeline path. -/
theorem claimC2_nan_accepted :
    coerceParams jpNone wfCountNumber.params [("count", Value.str ("abc"))]
      = [("count", Value.num JsNum.nan)]
    ∧ validateParams jpNone wfCountNumber
        (coerceParams jpNone wfCountNumber.params [("count", Value.str ("abc"))])
      = { valid := true, errors := [],
          resolvedParams := [("count", Value.num JsNum.nan)] }
    ∧ validateType jpNone ("count") ParamType.number (Value.str ("abc"))
      = some ⟨"count", "Expected number, got string"⟩
    ∧ coerceParams jpNone wfCountNumber.params [("count", Value.str ("7"))]
      = [("count", Value.num (JsNum.fin 7))]
    ∧ validateParams jpNone wfCountNumber
        (coerceParams jpNone wfCountNumber.params [("count", Value.str ("7"))])
      = { valid := true, errors := [],
          resolvedParams := [("count", Value.num (JsNum.fin 7))] } :=
  ⟨rfl, rfl, rfl, rfl, rfl⟩

/-- Claim C3 evaluation: for a Boolean-typed parameter, the raw string `"yes"`
is neither `"true"` nor `"false"`, yet the pipeline accepts it: coercion falls
back to JS truthiness (`Boolean("yes") = true`), after which validation sees a
native boolean and resolves the parameter to `true`.  `validateType` alone
would have rejected the raw string. -/
theorem claimC3_truthy_string_accepted :
    coerceParams jpNone wfFlagBoolean.params [("flag", Value.str ("yes"))]
      = [("flag", Value.bool true)]
    ∧ validateParams jpNone wfFlagBoolean
        (coerceParams jpNone wfFlagBoolean.params [("flag", Value.str ("yes"))])
      = { valid := true, errors := [],
          resolvedParams := [("flag", Value.bool true)] }
    ∧ validateType jpNone ("flag") ParamType.boolean (Value.str ("yes"))
      = some ⟨"flag", "Expected boolean, got string"⟩
    ∧ coerceParams jpNone wfFlagBoolean.params [("flag", Value.str ("true"))]
      = [("flag", Value.bool true)]
    ∧ validateParams jpNone wfFlagBoolean
        (coerceParams jpNone wfFlagBoolean.params [("flag", Value.str ("true"))])
      = { valid := true, errors := [],
          resolvedParams := [("flag", Value.bool true)] } :=
  ⟨rfl, rfl, rfl, rfl, rfl⟩

/-- Claim C4: whenever parameter validation fails, `runWorkflow` returns
immediately with `success = false` and the formatted validation errors, and
its effect trace is empty: no directory is created, no process is spawned,
nothing is even logged. -/
theorem claimC4_invalid_params_no_effects (jp : String → Option Value)
    (wf : WorkflowDefinition) (options : RunOptions) (env : ExecEnv)
    (hinvalid : (validateParams jp wf (coerceParams jp wf.params options.params)).valid
      = false) :
    runWorkflow jp wf options env
      = ({ success := false, outputDir := "", files := {},
           error := some ("Parameter validation failed:\n"
             ++ formatErrors
               (validateParams jp wf (coerceParams jp wf.params options.params)).errors) },
         []) := by
  simp only [runWorkflow, hinvalid]
  simp

theorem claimC4_witness :
    (validateParams jpNone wfUrlRequired (coerceParams jpNone wfUrlRequired.params [])).valid
      = false
    ∧ runWorkflow jpNone wfUrlRequired { params := [] } envBase
      = ({ success := false, outputDir := "", files := {},
           error := some
             "Parameter validation failed:\n  - url: Required parameter missing: url" },
         []) :=
  ⟨rfl, (claimC4_invalid_params_no_effects jpNone wfUrlRequired { params := [] } envBase
    rfl).trans rfl⟩

/-- Claim C5: on a valid dry run, `runWorkflow` returns `success = true`, its
effect trace contains no filesystem write and no process spawn, and the
composed prompt is what it surfaces (via the dry-run log) for inspection. -/
theorem claimC5_dry_run_pure (jp : String → Option Value) (wf : WorkflowDefinition)
    (options : RunOptions) (env : ExecEnv)
    (hvalid : (validateParams jp wf (coerceParams jp wf.params options.params)).valid = true)
    (hdry : options.dryRun = some true) :
    ∃ outputDir prompt,
      prompt = buildPrompt wf
        (validateParams jp wf (coerceParams jp wf.params options.params)).resolvedParams
        { outputDir := some outputDir }
      ∧ runWorkflow jp wf options env
        = ({ success := true, outputDir := outputDir, files := {},
             duration := some env.elapsed },
           [.log ("=== DRY RUN ==="), .log ("Prompt that would be sent to Claude:\n"),
            .log prompt, .log ("\n=== END DRY RUN ===")])
      ∧ (∀ e ∈ (runWorkflow jp wf options env).2,
          e.isFsWrite = false ∧ e.isSpawnEffect = false) := by
  refine ⟨pathResolve3
      (match options.workDir with
       | some d => if d == "" then env.cwd else d
       | none => env.cwd) "output" wf.name, _, rfl, ?_, ?_⟩
  · simp only [runWorkflow, hvalid, hdry]
    simp
  · intro e he
    simp only [runWorkflow, hvalid, hdry] at he
    simp at he
    rcases he with h | h | h | h <;> subst h <;>
      exact ⟨rfl, rfl⟩

theorem claimC5_witness :
    ∃ outputDir prompt,
      prompt = buildPrompt (wfPlaceholder ("w") "Hi " "!")
        (validateParams jpNone (wfPlaceholder ("w") "Hi " "!")
          (coerceParams jpNone (wfPlaceholder ("w") "Hi " "!").params [])).resolvedParams
        { outputDir := some outputDir }
      ∧ runWorkflow jpNone (wfPlaceholder ("w") "Hi " "!") { params := [], dryRun := some true } envBase
        = ({ success := true, outputDir := outputDir, files := {},
             duration := some envBase.elapsed },
           [.log ("=== DRY RUN ==="), .log ("Prompt that would be sent to Claude:\n"),
            .log prompt, .log ("\n=== END DRY RUN ===")])
      ∧ (∀ e ∈ (runWorkflow jpNone (wfPlaceholder ("w") "Hi " "!")
            { params := [], dryRun := some true } envBase).2,
          e.isFsWrite = false ∧ e.isSpawnEffect = false) :=
  claimC5_dry_run_pure jpNone (wfPlaceholder ("w") "Hi " "!")
    { params := [], dryRun := some true } envBase rfl rfl

theorem strExt {a b : String} (h : a.data = b.data) : a = b := by
  cases a; cases b; exact congrArg String.mk h

theorem renderTemplate_plain (s : String) (ctx : List (String × Value))
    (h : ∀ c ∈ s.data, c ≠ '{') : renderTemplate s ctx = s := by
  show String.mk (hbRenderL ctx s.data) = s
  rw [hbRenderL_plain ctx s.data h]

theorem buildCaptureInstructions_empty (ctx : List (String × Value)) :
    buildCaptureInstructions {} ctx = "" := rfl

theorem buildPrompt_no_capture (wf : WorkflowDefinition) (params : List (String × Value))
    (od : String) (hcap : wf.capture = {}) (hod : od ≠ "") :
    buildPrompt wf params { outputDir := some od }
      = renderTemplate wf.task
          (("name", Value.str wf.name) :: ("outputDir", Value.str od) :: params)
        ++ "\n" ++ promptFooter := by
  have hod' : (od == "") = false := by simp [hod]
  simp only [buildPrompt, hcap, hod', buildCaptureInstructions_empty]
  simp [jsJoin, promptFooter]

/-- Claim C6: composing a prompt whose task template contains the placeholder
for parameter `x` with `resolvedParams` mapping `x` to an HTML-safe value `v`
yields the literal text `v` at that position of the output; and any
placeholder whose (trimmed) name is absent from the rendering context renders
as the empty string, not as the placeholder literal. -/
theorem claimC6_roundtrip (wn od pre suf v : String)
    (hpre : braceFree pre = true) (hsuf : braceFree suf = true)
    (hv : htmlSafe v = true) (hod : od ≠ "") :
    buildPrompt (wfPlaceholder wn pre suf) [("x", Value.str v)] { outputDir := some od }
      = pre ++ v ++ suf ++ "\n" ++ promptFooter
    ∧ (∀ (ctx : List (String × Value)) (id : String), braceFree id = true →
        jsGet ctx (String.mk (trimJs id.data)) = Value.undef →
        renderTemplate ("\x7b\x7b" ++ id ++ "\x7d\x7d") ctx = "") := by
  constructor
  · rw [buildPrompt_no_capture _ _ od rfl hod]
    have htask : (wfPlaceholder wn pre suf).task
        = pre ++ "\x7b\x7b" ++ "x" ++ "\x7d\x7d" ++ suf := by
      apply strExt
      simp [wfPlaceholder, String.data_append]
    rw [htask,
      renderTemplate_split pre ("x") suf _ (braceFree_no_open hpre)
        (by intro c hc; simp at hc; subst hc; decide)]
    have hlk : hbLookup
        (("name", Value.str (wfPlaceholder wn pre suf).name) :: ("outputDir", Value.str od)
          :: [("x", Value.str v)]) ("x" : String).data
        = escapeHtmlL v.data := rfl
    rw [hlk]
    have hesc : String.mk (escapeHtmlL v.data) = v := by
      have : String.mk (escapeHtmlL v.data) = escapeHtml v := rfl
      rw [this, escapeHtml_of_safe hv]
    rw [hesc, renderTemplate_plain suf _ (braceFree_no_open hsuf)]
  · intro ctx id hid hget
    have h1 : ("\x7b\x7b" ++ id ++ "\x7d\x7d" : String)
        = "" ++ "\x7b\x7b" ++ id ++ "\x7d\x7d" ++ "" := by
      apply strExt
      simp [String.data_append]
    rw [h1, renderTemplate_split ("") id ("") ctx (by simp) (braceFree_no_close hid)]
    show ("") ++ String.mk (escapeHtmlL (hbStringify (jsGet ctx (String.mk (trimJs id.data)))).data)
        ++ renderTemplate ("") ctx = ""
    rw [hget]
    rfl

theorem claimC6_witness :
    buildPrompt (wfPlaceholder ("w") "Go to " " now") [("x", Value.str ("v"))]
        { outputDir := some ("/o") }
      = "Go to " ++ "v" ++ " now" ++ "\n" ++ promptFooter
    ∧ renderTemplate ("\x7b\x7bmissing\x7d\x7d") [("x", Value.str ("v"))] = "" := by
  have h := claimC6_roundtrip ("w") "/o" "Go to " " now" "v" rfl rfl rfl (by decide)
  refine ⟨h.1, ?_⟩
  have h2 := h.2 [("x", Value.str ("v"))] "missing" rfl rfl
  have h3 : ("\x7b\x7b" ++ "missing" ++ "\x7d\x7d" : String) = "\x7b\x7bmissing\x7d\x7d" := rfl
  rw [← h3]
  exact h2

/-- Claim C10: template substitution in prompt composition HTML-escapes the
substituted value — a parameter value containing an HTML-special character
appears at the placeholder position as its escaped form (`&amp;` for `&`,
`&lt;` for `<`, and so on), which differs from the literal value. -/
theorem claimC10_substitution_escapes (wn od pre suf s : String)
    (hpre : braceFree pre = true) (hsuf : braceFree suf = true)
    (hod : od ≠ "") (hs : containsHtmlSpecial s = true) :
    buildPrompt (wfPlaceholder wn pre suf) [("x", Value.str s)] { outputDir := some od }
      = pre ++ escapeHtml s ++ suf ++ "\n" ++ promptFooter
    ∧ escapeHtml s ≠ s
    ∧ escapeHtml ("&") = "&amp;"
    ∧ escapeHtml ("<") = "&lt;"
    ∧ escapeHtml (">") = "&gt;"
    ∧ escapeHtml ("\"") = "&quot;"
    ∧ escapeHtml (String.mk [Char.ofNat 39]) = "&#x27;" := by
  refine ⟨?_, escapeHtml_ne_of_special hs, by decide, by decide, by decide, by decide, by decide⟩
  rw [buildPrompt_no_capture _ _ od rfl hod]
  have htask : (wfPlaceholder wn pre suf).task
      = pre ++ "\x7b\x7b" ++ "x" ++ "\x7d\x7d" ++ suf := by
    apply strExt
    simp [wfPlaceholder, String.data_append]
  rw [htask,
    renderTemplate_split pre ("x") suf _ (braceFree_no_open hpre)
      (by intro c hc; simp at hc; subst hc; decide)]
  have hlk : hbLookup
      (("name", Value.str (wfPlaceholder wn pre suf).name) :: ("outputDir", Value.str od)
        :: [("x", Value.str s)]) ("x" : String).data
      = escapeHtmlL s.data := rfl
  rw [hlk, renderTemplate_plain suf _ (braceFree_no_open hsuf)]
  rfl

theorem claimC10_witness :
    buildPrompt (wfPlaceholder ("w") "Say " "!") [("x", Value.str ("a&b"))]
        { outputDir := some ("/o") }
      = "Say " ++ "a&amp;b" ++ "!" ++ "\n" ++ promptFooter
    ∧ escapeHtml ("a&b") ≠ "a&b" := by
  have h := claimC10_substitution_escapes ("w") "/o" "Say " "!" "a&b" rfl rfl (by decide) rfl
  exact ⟨h.1.trans (by rfl), h.2.1⟩

theorem dedupe_countP_eq_zero (n : String) :
    ∀ (l : List LoadedWorkflow) (seen : List String), n ∈ seen →
      (dedupeByNameGo seen l).countP (fun w => w.definition.name == n) = 0 := by
  intro l
  induction l with
  | nil => intro seen _; rfl
  | cons w rest ih =>
    intro seen hn
    by_cases hw : seen.contains w.definition.name
    · simp only [dedupeByNameGo, hw, if_true]
      exact ih seen hn
    · have hmem : w.definition.name ∉ seen := by simpa using hw
      have hne : (w.definition.name == n) = false := by
        simp only [beq_eq_false_iff_ne]
        intro he
        exact hmem (he ▸ hn)
      simp only [dedupeByNameGo, hw, if_false, Bool.false_eq_true, List.countP_cons, hne]
      have := ih (w.definition.name :: seen) (by simp [hn])
      omega

theorem dedupe_countP_eq_one (n : String) :
    ∀ (l : List LoadedWorkflow) (seen : List String), n ∉ seen →
      l.any (fun w => w.definition.name == n) = true →
      (dedupeByNameGo seen l).countP (fun w => w.definition.name == n) = 1 := by
  intro l
  induction l with
  | nil => intro seen _ h; simp at h
  | cons w rest ih =>
    intro seen hn hany
    by_cases hw : seen.contains w.definition.name
    · have hmem : w.definition.name ∈ seen := by simpa using hw
      have hne : (w.definition.name == n) = false := by
        simp only [beq_eq_false_iff_ne]
        intro he
        exact hn (he ▸ hmem)
      simp only [List.any_cons, hne, Bool.false_or] at hany
      simp only [dedupeByNameGo, hw, if_true]
      exact ih seen hn hany
    · by_cases hpw : w.definition.name = n
      · subst hpw
        simp only [dedupeByNameGo, hw, if_false, Bool.false_eq_true, List.countP_cons,
          beq_self_eq_true, if_true]
        have h0 := dedupe_countP_eq_zero w.definition.name rest
          (w.definition.name :: seen) (by simp)
        omega
      · have hne : (w.definition.name == n) = false := by
          simp only [beq_eq_false_iff_ne]; exact hpw
        simp only [List.any_cons, hne, Bool.false_or] at hany
        simp only [dedupeByNameGo, hw, if_false, Bool.false_eq_true, List.countP_cons, hne]
        have := ih (w.definition.name :: seen)
          (by simp only [List.mem_cons]; rintro (h | h); exact hpw h.symm; exact hn h) hany
        omega

theorem dedupe_find?_eq (n : String) :
    ∀ (l : List LoadedWorkflow) (seen : List String), n ∉ seen →
      (dedupeByNameGo seen l).find? (fun w => w.definition.name == n)
        = l.find? (fun w => w.definition.name == n) := by
  intro l
  induction l with
  | nil => intro seen _; rfl
  | cons w rest ih =>
    intro seen hn
    by_cases hw : seen.contains w.definition.name
    · have hmem : w.definition.name ∈ seen := by simpa using hw
      have hne : (w.definition.name == n) = false := by
        simp only [beq_eq_false_iff_ne]
        intro he
        exact hn (he ▸ hmem)
      have hnp : ¬ ((fun w => w.definition.name == n) w = true) := by simp [hne]
      simp only [dedupeByNameGo, hw, if_true]
      rw [List.find?_cons_of_neg rest hnp]
      exact ih seen hn
    · by_cases hpw : w.definition.name = n
      · have hp : ((fun w => w.definition.name == n) w = true) := by simp [hpw]
        simp only [dedupeByNameGo, hw, if_false, Bool.false_eq_true]
        rw [List.find?_cons_of_pos (dedupeByNameGo (w.definition.name :: seen) rest) hp,
          List.find?_cons_of_pos rest hp]
      · have hne : (w.definition.name == n) = false := by
          simp only [beq_eq_false_iff_ne]; exact hpw
        have hnp : ¬ ((fun w => w.definition.name == n) w = true) := by simp [hne]
        simp only [dedupeByNameGo, hw, if_false, Bool.false_eq_true]
        rw [List.find?_cons_of_neg (dedupeByNameGo (w.definition.name :: seen) rest) hnp,
          List.find?_cons_of_neg rest hnp]
        exact ih (w.definition.name :: seen)
          (by simp only [List.mem_cons]; rintro (h | h); exact hpw h.symm; exact hn h)

theorem find?_append_left {α : Type} (p : α → Bool) :
    ∀ (l1 l2 : List α) (w : α), l1.find? p = some w → (l1 ++ l2).find? p = some w := by
  intro l1
  induction l1 with
  | nil => intro l2 w h; simp at h
  | cons a rest ih =>
    intro l2 w h
    by_cases hp : p a
    · rw [List.find?_cons_of_pos _ hp] at h
      simp only [List.cons_append, List.find?_cons_of_pos _ hp]
      exact h
    · rw [List.find?_cons_of_neg _ hp] at h
      simp only [List.cons_append, List.find?_cons_of_neg _ hp]
      exact ih l2 w h

/-- Claim C7: when two loaded definitions declare the same name under two
different search roots, bulk enumeration returns exactly one entry for that
name, and it is the first matching entry of the higher-priority root. -/
theorem claimC7_dedupe_priority_wins (l1 l2 : List LoadedWorkflow) (n : String)
    (w1 w2 : LoadedWorkflow) (h1 : w1 ∈ l1) (hn1 : w1.definition.name = n)
    (h2 : w2 ∈ l2) (hn2 : w2.definition.name = n) :
    (listWorkflows [l1, l2]).countP (fun w => w.definition.name == n) = 1
    ∧ ∃ w, (listWorkflows [l1, l2]).find? (fun w => w.definition.name == n) = some w
        ∧ w ∈ l1 ∧ w.definition.name = n
        ∧ l1.find? (fun w => w.definition.name == n) = some w := by
  have hflat : ([l1, l2] : List (List LoadedWorkflow)).flatten = l1 ++ l2 := by simp
  have hany : (l1 ++ l2).any (fun w => w.definition.name == n) = true := by
    simp only [List.any_eq_true]
    exact ⟨w1, by simp [h1], by simp [hn1]⟩
  constructor
  · show (dedupeByNameGo [] (([l1, l2] : List (List LoadedWorkflow)).flatten)).countP
      (fun w => w.definition.name == n) = 1
    rw [hflat]
    exact dedupe_countP_eq_one n (l1 ++ l2) [] (by simp) hany
  · have hsome : ∃ w, l1.find? (fun w => w.definition.name == n) = some w := by
      have hs : (l1.find? (fun w => w.definition.name == n)).isSome :=
        List.find?_isSome.mpr ⟨w1, h1, by simp [hn1]⟩
      exact Option.isSome_iff_exists.mp hs
    obtain ⟨w, hw⟩ := hsome
    refine ⟨w, ?_, List.mem_of_find?_eq_some hw, ?_, hw⟩
    · show (dedupeByNameGo [] (([l1, l2] : List (List LoadedWorkflow)).flatten)).find?
        (fun w => w.definition.name == n) = some w
      rw [hflat, dedupe_find?_eq n (l1 ++ l2) [] (by simp)]
      exact find?_append_left _ l1 l2 w hw
    · have hp := List.find?_some hw
      simpa using hp

theorem claimC7_witness :
    (listWorkflows [[lwA], [lwB]]).countP
      (fun w => w.definition.name == "scrape") = 1
    ∧ ∃ w, (listWorkflows [[lwA], [lwB]]).find?
          (fun w => w.definition.name == "scrape") = some w
        ∧ w ∈ [lwA] ∧ w.definition.name = "scrape"
        ∧ [lwA].find? (fun w => w.definition.name == "scrape") = some w :=
  claimC7_dedupe_priority_wins [lwA] [lwB] "scrape" lwA lwB (by simp) rfl (by simp) rfl

/-- Claim C8: `defineWorkflow` fails exactly when the name or task is
missing/empty or when params or capture is absent; on success it returns the
definition unchanged except that the task template is trimmed of leading and
trailing whitespace. -/
theorem claimC8_normalizer (d : RawWorkflowInput) :
    ((defineWorkflow d).isOk = true
      ↔ (strFalsy d.name = false ∧ strFalsy d.task = false
          ∧ d.params.isSome = true ∧ d.capture.isSome = true))
    ∧ (∀ n p c t, d.name = some n → d.task = some t →
        n ≠ "" → t ≠ "" → d.params = some p → d.capture = some c →
        defineWorkflow d
          = .ok { name := n, description := d.description, params := p, capture := c,
                  task := strTrim t }) := by
  constructor
  · unfold defineWorkflow
    by_cases h1 : strFalsy d.name = true
    · simp [h1, Except.isOk, Except.toBool]
    · by_cases h2 : strFalsy d.task = true
      · simp [h1, h2, Except.isOk, Except.toBool]
      · by_cases h3 : d.params.isNone = true
        · have h3' : d.params.isSome = false := by
            cases hp : d.params with
            | none => rfl
            | some _ => rw [hp] at h3; simp at h3
          simp [h1, h2, h3, h3', Except.isOk, Except.toBool]
        · by_cases h4 : d.capture.isNone = true
          · have h4' : d.capture.isSome = false := by
              cases hc : d.capture with
              | none => rfl
              | some _ => rw [hc] at h4; simp at h4
            simp [h1, h2, h3, h4, h4', Except.isOk, Except.toBool]
          · have h3' : d.params.isSome = true := by
              cases hp : d.params with
              | none => rw [hp] at h3; simp at h3
              | some _ => rfl
            have h4' : d.capture.isSome = true := by
              cases hc : d.capture with
              | none => rw [hc] at h4; simp at h4
              | some _ => rfl
            have hb1 : strFalsy d.name = false := by simpa using h1
            have hb2 : strFalsy d.task = false := by simpa using h2
            simp [h1, h2, h3, h4, hb1, hb2, h3', h4', Except.isOk, Except.toBool]
  · intro n p c t hn ht hne hte hp hc
    have hf1 : strFalsy (some n) = false := by simp [strFalsy, hne]
    have hf2 : strFalsy (some t) = false := by simp [strFalsy, hte]
    unfold defineWorkflow
    simp [hn, ht, hp, hc, hf1, hf2]

theorem claimC8_witness :
    defineWorkflow
        { name := some ("w"), description := some ("demo"), params := some [],
          capture := some {}, task := some ("  do it  ") }
      = .ok { name := "w", description := some ("demo"), params := [], capture := {},
              task := "do it" } :=
  ((claimC8_normalizer _).2 ("w") [] {} "  do it  " rfl rfl (by decide) (by decide)
    rfl rfl).trans rfl

/-- Claim C9: `validateParams` treats an empty-string value exactly like an
absent one — the whole result coincides with validating the empty input, a
required parameter supplied as `""` yields its `MissingRequired` error, and an
optional parameter with a declared default resolves to the default. -/
theorem claimC9_empty_string_as_absent (jp : String → Option Value) (wn tk : String)
    (cap : CaptureConfig) (n : String) (d : ParamDefinition) :
    (validateParams jp (singleParamWorkflow wn tk cap n d) [(n, Value.str (""))]
      = validateParams jp (singleParamWorkflow wn tk cap n d) [])
    ∧ (d.required = true →
        validateParams jp (singleParamWorkflow wn tk cap n d) [(n, Value.str (""))]
          = { valid := false, errors := [⟨n, "Required parameter missing: " ++ n⟩],
              resolvedParams := [] })
    ∧ (∀ v, d.required = false → d.default = some v →
        validateParams jp (singleParamWorkflow wn tk cap n d) [(n, Value.str (""))]
          = { valid := true, errors := [], resolvedParams := [(n, v)] }) := by
  have hget : jsGet [(n, Value.str (""))] n = Value.str ("") := by
    simp [jsGet]
  refine ⟨?_, ?_, ?_⟩
  · simp only [validateParams, validateEach, singleParamWorkflow, unknownParamErrors,
      hget, jsGet, List.find?, List.any_cons, beq_self_eq_true, Bool.true_or, if_true]
    rfl
  · intro hreq
    simp [validateParams, validateEach, singleParamWorkflow, unknownParamErrors,
      hget, validateParam, isAbsentish, hreq]
  · intro v hreq hdef
    simp [validateParams, validateEach, singleParamWorkflow, unknownParamErrors,
      hget, validateParam, isAbsentish, hreq, hdef]

theorem claimC9_witness :
    validateParams jpNone
        (singleParamWorkflow ("w") "t" {} "url" { type := ParamType.string, required := true })
        [("url", Value.str (""))]
      = { valid := false, errors := [⟨"url", "Required parameter missing: url"⟩],
          resolvedParams := [] }
    ∧ validateParams jpNone
        (singleParamWorkflow ("w") "t" {} "count"
          { type := ParamType.number, default := some (Value.num (JsNum.fin 3)) })
        [("count", Value.str (""))]
      = { valid := true, errors := [],
          resolvedParams := [("count", Value.num (JsNum.fin 3))] } :=
  ⟨(claimC9_empty_string_as_absent jpNone ("w") "t" {} "url"
      { type := ParamType.string, required := true }).2.1 rfl,
   (claimC9_empty_string_as_absent jpNone ("w") "t" {} "count"
      { type := ParamType.number, default := some (Value.num (JsNum.fin 3)) }).2.2
     (Value.num (JsNum.fin 3)) rfl rfl⟩
